import Mathlib

/-
Verification of the samplers table-rendering core (tag parsing, schema
derivation, row projection, table building in plain and delta modes, and
row sorting) as a shallow embedding in Lean.

Modelling conventions:
* Go interface values are a closed variant `GoValue` (int64, float64 and
  string fields); `reflect.TypeOf` equality becomes `GoValue.kind` equality
  and float64 arithmetic is carried out exactly in ℚ.
* Go maps are association lists; map iteration order (randomised in Go) is
  the list order, and map lookup of a missing key yields the zero value.
* A Go runtime panic (index out of range) is the `Except.error` branch of
  `Except GoPanic`; errors returned as ordinary `error` values travel in an
  `Option GoErr` component, mirroring Go's multiple return values.
-/

/-- Sort modes for a column, mirroring the sortType constants of the source. -/
inductive sortType
  | sortNone
  | sortAsc
  | sortDesc
  | sortAscNum
  | sortDescNum
deriving DecidableEq

/-- Runtime kinds of field values; stands in for the reflect type of the
concrete value (one Go type per kind in this embedding). -/
inductive GoKind
  | kInt
  | kFloat
  | kString
deriving DecidableEq

/-- A field value: the closed variant standing in for Go interface values.
Numbers are exact (Int for int64, ℚ for float64). -/
inductive GoValue
  | int (n : Int)
  | float (q : ℚ)
  | str (s : String)
deriving DecidableEq

/-- The reflect type of a value, at the granularity the delta code compares. -/
def GoValue.kind : GoValue → GoKind
  | .int _ => .kInt
  | .float _ => .kFloat
  | .str _ => .kString

/-- A Go runtime panic: the only one reachable in this code is an index out of
range (slice/string indexing or reflect Field on an empty struct). -/
inductive GoPanic
  | outOfRange
deriving DecidableEq

/-- Error values returned (as ordinary Go errors) by the source functions. -/
inductive GoErr
  | nameRedefined
  | typeMismatch
  | notAStruct
  | notConvertible
deriving DecidableEq

/-- Column metadata, mirroring struct columndetails of the source (the unused
convfunc field is dropped). -/
structure columndetails where
  tags : String
  name : String
  number : Nat
  format : String
  sort : sortType
deriving DecidableEq

/-- The Go zero value of columndetails, produced by a map access on a key that
is not present. -/
instance : Inhabited columndetails :=
  ⟨{ tags := "", name := "", number := 0, format := "", sort := .sortNone }⟩

/-- Columns is the registry map; modelled as an association list in insertion
order (Go struct field names are unique, so lookup agrees with map access). -/
abbrev Columns := List (String × columndetails)

/-- Go map access c[k]: the stored value, or the zero value when absent. -/
def Columns.get (c : Columns) (k : String) : columndetails :=
  (List.lookup k c).getD default

/-- A struct instance: field names (from its type, in declaration order)
paired with the field values. -/
abbrev GoStruct := List (String × GoValue)

/-- Modelled from the spec: the default `%v` rendering of fmt.Sprintf
("render with default representation").  Integers render in decimal; an
integral float renders its integer digits exactly as Go's %v does; the
rendering of a non-integral rational is a stand-in (no claim inspects one). -/
def govRender : GoValue → String
  | .int n => toString n
  | .float q => if q.den = 1 then toString q.num else toString q.num ++ "/" ++ toString q.den
  | .str s => s

/-- Modelled from the spec: fmt.Sprintf with one verb.  The default "%v" verb
is rendered exactly; any other format string is applied as an opaque tag
around the default rendering, since no claim inspects a non-default verb. -/
def sprintf (fmtStr : String) (v : GoValue) : String :=
  if fmtStr = "%v" then govRender v
  else fmtStr ++ "<" ++ govRender v ++ ">"

/-- Exact subtraction on ℚ, written through Rat.divInt so that concrete
instances reduce inside the kernel; equal to subtraction (fsub_eq). -/
def fsub (a b : ℚ) : ℚ := Rat.divInt (a.num * b.den - b.num * a.den) (a.den * b.den)

/-- Exact division on ℚ, written through Rat.divInt so that concrete
instances reduce inside the kernel; equal to division (fdiv_eq). -/
def fdiv (a b : ℚ) : ℚ := Rat.divInt (a.num * b.den) (a.den * b.num)

/-- toFloat of the source: reflect-convert the concrete value to float64.
Numeric kinds convert (exactly, in this embedding); strings do not. -/
def toFloat : GoValue → Except GoErr ℚ
  | .int n => .ok (Rat.divInt n 1)
  | .float q => .ok q
  | .str _ => .error .notConvertible

/-- strings.Split(tag, ",") on character lists ("" splits to [""]). -/
def splitComma : List Char → List (List Char)
  | [] => [[]]
  | ch :: rest =>
      if ch = ',' then [] :: splitComma rest
      else
        match splitComma rest with
        | [] => [[ch]]
        | t :: ts => (ch :: t) :: ts

/-- strings.IndexByte(t, '=') together with the two slices t[:i] and t[i+1:];
none when no '=' occurs. -/
def splitEq : List Char → Option (List Char × List Char)
  | [] => none
  | ch :: rest =>
      if ch = '=' then some ([], rest)
      else (splitEq rest).map (fun p => (ch :: p.1, p.2))

/-- strings.HasSuffix(s, "num"). -/
def isSuffixNum (l : List Char) : Bool :=
  List.isSuffixOf ['n', 'u', 'm'] l

/-- One iteration of the clause loop of parseTags.  A clause without '=' is a
display-name clause: it errors if the name was already changed from the field
name, else sets the name.  A "sort=" clause reads the byte after '=' (a Go
index out of range panic when the clause is exactly "sort="), then applies the
optional "num" suffix.  A "format=" clause stores the rest verbatim.  Other
prefixes are ignored. -/
def parseClause (fieldname : String) (cols : columndetails) (t : List Char) :
    Except GoPanic (columndetails × Option GoErr) :=
  match splitEq t with
  | none =>
      if cols.name ≠ fieldname then .ok (cols, some .nameRedefined)
      else .ok ({ cols with name := String.mk t }, none)
  | some (pre, rest) =>
      if String.mk pre = "sort" then
        match rest with
        | [] => .error .outOfRange
        | c1 :: _ =>
            let s1 := if c1 = '-' then sortType.sortDesc else sortType.sortAsc
            let s2 :=
              if isSuffixNum rest then
                if s1 = sortType.sortAsc then sortType.sortAscNum else sortType.sortDescNum
              else s1
            .ok ({ cols with sort := s2 }, none)
      else if String.mk pre = "format" then
        .ok ({ cols with format := String.mk rest }, none)
      else
        .ok (cols, none)

/-- The clause loop of parseTags: stop and return on the first error. -/
def ptLoop (fieldname : String) : List (List Char) → columndetails →
    Except GoPanic (columndetails × Option GoErr)
  | [], cols => .ok (cols, none)
  | t :: rest, cols =>
      match parseClause fieldname cols t with
      | .error p => .error p
      | .ok (cols2, some e) => .ok (cols2, some e)
      | .ok (cols2, none) => ptLoop fieldname rest cols2

/-- parseTags of the source, on the character list of the tag. -/
def parseTagsL (fieldname : String) (tagChars : List Char) :
    Except GoPanic (columndetails × Option GoErr) :=
  ptLoop fieldname (splitComma tagChars)
    { tags := String.mk tagChars, name := fieldname, number := 0, format := "%v",
      sort := .sortNone }

/-- parseTags of the source: defaults name := fieldname and format := "%v",
then folds the comma-separated clauses. -/
def parseTags (fieldname : String) (tag : String) :
    Except GoPanic (columndetails × Option GoErr) :=
  parseTagsL fieldname tag.toList

/-- The field loop of ColumnInfo.  srt is the running `sorting` variable, i
the field index.  A tagged field is parsed (an error returns the accumulators
so far, the partial column being discarded); a field whose parsed descriptor
has a sort mode other than none overwrites `sorting`; an untagged field gets
the default descriptor.  A column named "OMIT" is stored in the registry but
kept out of columnnames. -/
def ciLoop (srt : String) : List (String × Option String) → Nat →
    Except GoPanic (Columns × List String × String × Option GoErr)
  | [], _ => .ok ([], [], srt, none)
  | (fname, otag) :: rest, i =>
      match otag with
      | some tg =>
          match parseTags fname tg with
          | .error p => .error p
          | .ok (_, some e) => .ok ([], [], srt, some e)
          | .ok (cd, none) =>
              let srt2 := if cd.sort ≠ sortType.sortNone then fname else srt
              let cdi := { cd with number := i }
              match ciLoop srt2 rest (i + 1) with
              | .error p => .error p
              | .ok (cols, names, srtOut, e) =>
                  .ok ((fname, cdi) :: cols,
                       (if cdi.name = "OMIT" then names else cdi.name :: names), srtOut, e)
      | none =>
          let cdi : columndetails :=
            { tags := "", name := fname, number := i, format := "%v", sort := sortType.sortNone }
          match ciLoop srt rest (i + 1) with
          | .error p => .error p
          | .ok (cols, names, srtOut, e) =>
              .ok ((fname, cdi) :: cols,
                   (if cdi.name = "OMIT" then names else cdi.name :: names), srtOut, e)

/-- ColumnInfo of the source.  The input is the record shape: field names in
declaration order, each with its optional raw `column` tag.  `sorting` starts
as the first field's name (reflect Field(0) panics on an empty struct). -/
def ColumnInfo (shape : List (String × Option String)) :
    Except GoPanic (Columns × List String × String × Option GoErr) :=
  match shape with
  | [] => .error .outOfRange
  | (f0, _) :: _ => ciLoop f0 shape 0

/-- rowFromStruct of the source: pivot a struct to the list of its field
values.  `none` models the invalid reflect.Value produced by indexing a map
with an absent key; it fails the struct check and yields no values. -/
def rowFromStruct (v : Option GoStruct) : List GoValue × Option GoErr :=
  match v with
  | some st => (st.map Prod.snd, none)
  | none => ([], some .notAStruct)

/-- The cell loop shared by RowsFromMap and RowsFromSlice: render each field
through its column's format, skipping columns displayed as "OMIT". -/
def plainCells (c : Columns) : GoStruct → List String
  | [] => []
  | (fname, v) :: rest =>
      if (c.get fname).name = "OMIT" then plainCells c rest
      else sprintf (c.get fname).format v :: plainCells c rest

/-- Byte-wise lexicographic string comparison (Go string <; UTF-8 byte order
agrees with code point order). -/
def lexLt : List Char → List Char → Bool
  | [], [] => false
  | [], _ :: _ => true
  | _ :: _, [] => false
  | a :: as1, b :: bs1 => if a = b then lexLt as1 bs1 else decide (a < b)

/-- Go string comparison a < b. -/
def strLt (a b : String) : Bool := lexLt a.toList b.toList

/-- The numeric value of a decimal digit, if any. -/
def digitVal (ch : Char) : Option Nat :=
  if '0' ≤ ch ∧ ch ≤ '9' then some (ch.toNat - '0'.toNat) else none

/-- Longest leading run of decimal digits, with the remainder. -/
def takeDigits : List Char → List Nat × List Char
  | [] => ([], [])
  | ch :: rest =>
      match digitVal ch with
      | some d =>
          let p := takeDigits rest
          (d :: p.1, p.2)
      | none => ([], ch :: rest)

/-- The natural number denoted by a digit list (most significant first). -/
def digitsToNat (ds : List Nat) : Nat := ds.foldl (fun a d => a * 10 + d) 0

/-- Modelled from the spec: strconv.ParseFloat with its error ignored, as the
sorter uses it — malformed numeric text yields 0.  Plain decimals
([+|-]digits[.digits]) parse exactly; exotic syntaxes (exponents, hex, inf)
are outside every claim and also yield 0 here. -/
def parseGoFloat (s : String) : ℚ :=
  let signAndRest : Bool × List Char :=
    match s.toList with
    | '-' :: rest => (true, rest)
    | '+' :: rest => (false, rest)
    | cs => (false, cs)
  let signed : ℚ → ℚ := fun q => if signAndRest.1 then -q else q
  let p1 := takeDigits signAndRest.2
  match p1.2 with
  | [] => if p1.1.isEmpty then 0 else signed (Rat.divInt (digitsToNat p1.1) 1)
  | '.' :: rest2 =>
      let p2 := takeDigits rest2
      if p2.2.isEmpty ∧ !(p1.1.isEmpty ∧ p2.1.isEmpty) then
        signed (Rat.divInt (digitsToNat p1.1 * 10 ^ p2.1.length + digitsToNat p2.1)
          (10 ^ p2.1.length))
      else 0
  | _ => 0

/-- The cell of row r the sorter reads; in-range accesses are checked by
sortRowsCore before this default is ever taken. -/
def cellAt (r : List String) (i : Nat) : String := r.getD i ""

/-- The comparator closure passed to sort.Slice by sortRows, for a given sort
mode and cell index. -/
def rowLess (st : sortType) (sortby : Nat) (a b : List String) : Bool :=
  match st with
  | .sortDesc => !(strLt (cellAt a sortby) (cellAt b sortby))
  | .sortAscNum =>
      let an := parseGoFloat (cellAt a sortby)
      let bn := parseGoFloat (cellAt b sortby)
      if an = bn then strLt (cellAt a sortby) (cellAt b sortby)
      else decide (an < bn)
  | .sortDescNum =>
      let an := parseGoFloat (cellAt a sortby)
      let bn := parseGoFloat (cellAt b sortby)
      if an = bn then !(strLt (cellAt a sortby) (cellAt b sortby))
      else decide (bn ≤ an)
  | _ => strLt (cellAt a sortby) (cellAt b sortby)

/-- Insertion step of the comparison sort standing in for sort.Slice. -/
def insertRow (less : List String → List String → Bool) (x : List String) :
    List (List String) → List (List String)
  | [] => [x]
  | y :: ys => if less x y then x :: y :: ys else y :: insertRow less x ys

/-- Modelled from the spec: sort.Slice as a comparison sort.  For a strict
comparator the result is the unique sorted order; for the non-strict
descending comparators the order of tied rows is unspecified in Go as well
(sort.Slice is not stable), and no claim depends on it. -/
def sortSlice (less : List String → List String → Bool) :
    List (List String) → List (List String)
  | [] => []
  | x :: xs => insertRow less x (sortSlice less xs)

/-- sortRows with the sort mode and cell index already extracted.  Go's
sort.Slice evaluates the comparator on every element once two or more rows
exist, so rows[a][sortby] panics exactly when some row is too short and there
are at least two rows. -/
def sortRowsCore (st : sortType) (sortby : Nat) (rows : List (List String)) :
    Except GoPanic (List (List String)) :=
  if rows.length ≤ 1 then .ok rows
  else if rows.all (fun r => decide (sortby < r.length)) then
    .ok (sortSlice (rowLess st sortby) rows)
  else .error .outOfRange

/-- sortRows of the source: look up the sort column (zero value if absent, so
mode none and cell index 0) and sort by its stored `number`. -/
def sortRows (c : Columns) (rows : List (List String)) (sortcol : String) :
    Except GoPanic (List (List String)) :=
  sortRowsCore (c.get sortcol).sort (c.get sortcol).number rows

/-- The position of a column among the rendered (non-OMIT) cells: how many
non-OMIT columns precede it in the registry. -/
def renderedIndex : Columns → String → Nat
  | [], _ => 0
  | (f, cd) :: rest, s =>
      if f = s then 0
      else (if cd.name = "OMIT" then 0 else 1) + renderedIndex rest s

/-- Modelled from the spec: the Row Sorter as §4.6 words it, comparing rows at
the sort column's ordinal "among rendered cells" — for comparison with the
source sortRows, which uses the stored struct-field index instead. -/
def sortRowsSpec (c : Columns) (rows : List (List String)) (sortcol : String) :
    Except GoPanic (List (List String)) :=
  sortRowsCore (c.get sortcol).sort (renderedIndex c sortcol) rows

/-- RowsFromMap of the source: render each map entry's struct through
plainCells, then sort by the configured sort column.  The publishing of the
result is modelled by returning it. -/
def RowsFromMap (c : Columns) (sortcol : String) (data : List (String × GoStruct)) :
    Except GoPanic (List (List String)) :=
  sortRows c (data.map (fun kv => plainCells c kv.2)) sortcol

/-- RowsFromSlice of the source: render each struct in order; no sorting. -/
def RowsFromSlice (c : Columns) (data : List GoStruct) : List (List String) :=
  data.map (plainCells c)

/-- Failure modes of the delta cell loop: a runtime panic (rawold[i] out of
range) or the non-matching-types error return. -/
inductive DFail
  | panic
  | mismatch
deriving DecidableEq

/-- One delta cell: when both the new and the old value convert to float the
cell is the formatted scaled difference (newfloat − oldfloat) / seconds, else
the formatted raw new value. -/
def deltaCell (c : Columns) (secs : ℚ) (fname : String) (v o : GoValue) : String :=
  match toFloat v, toFloat o with
  | .ok nf, .ok of1 => sprintf (c.get fname).format (.float (fdiv (fsub nf of1) secs))
  | _, _ => sprintf (c.get fname).format v

/-- The per-row cell loop of RowsFromMapDelta: fields of the new struct in
lockstep with the old value list.  An OMIT column is skipped before anything
else (so before the type check); otherwise rawold[i] is read (panicking when
out of range), the reflect types are compared (the mismatch error aborts), and
the cell is computed by deltaCell. -/
def deltaCellsGo (c : Columns) (secs : ℚ) : GoStruct → List GoValue →
    Except DFail (List String)
  | [], _ => .ok []
  | (fname, v) :: rest, olds =>
      if (c.get fname).name = "OMIT" then deltaCellsGo c secs rest olds.tail
      else
        match olds with
        | [] => .error .panic
        | o :: otail =>
            if o.kind ≠ v.kind then .error .mismatch
            else
              match deltaCellsGo c secs rest otail with
              | .error p => .error p
              | .ok cells => .ok (deltaCell c secs fname v o :: cells)

/-- The key loop of RowsFromMapDelta over the new map's keys.  The old row is
looked up with the error of rowFromStruct discarded (a missing key thus yields
an empty value list); a mismatch stops the loop and returns the rows built so
far together with the error. -/
def dLoop (c : Columns) (secs : ℚ) (olddata : List (String × GoStruct)) :
    List (String × GoStruct) → Except GoPanic (List (List String) × Option GoErr)
  | [] => .ok ([], none)
  | (k, st) :: rest =>
      let rawold := (rowFromStruct (List.lookup k olddata)).1
      match deltaCellsGo c secs st rawold with
      | .error .panic => .error .outOfRange
      | .error .mismatch => .ok ([], some .typeMismatch)
      | .ok cells =>
          match dLoop c secs olddata rest with
          | .error p => .error p
          | .ok (rows, e) => .ok (cells :: rows, e)

/-- RowsFromMapDelta of the source.  interval is a time.Duration in
nanoseconds; an interval of exactly zero becomes one second, and the divisor
is interval.Seconds().  On the mismatch error the rows built so far are
returned unsorted (the sort only runs on success). -/
def RowsFromMapDelta (c : Columns) (sortcol : String)
    (newdata olddata : List (String × GoStruct)) (interval : Int) :
    Except GoPanic (List (List String) × Option GoErr) :=
  let secs : ℚ := if interval = 0 then 1 else Rat.divInt interval 1000000000
  match dLoop c secs olddata newdata with
  | .error p => .error p
  | .ok (rows, some e) => .ok (rows, some e)
  | .ok (rows, none) =>
      match sortRows c rows sortcol with
      | .error p => .error p
      | .ok rows2 => .ok (rows2, none)

/-- UpdateTableFromMapDelta of the source: the error of RowsFromMapDelta is
discarded and the rows are handed to Dataview().UpdateTable together with the
configured column names.  Publication to the external sink is modelled by
returning the published payload. -/
def UpdateTableFromMapDelta (c : Columns) (columnnames : List String) (sortcol : String)
    (newdata olddata : List (String × GoStruct)) (interval : Int) :
    Except GoPanic (List String × List (List String)) :=
  match RowsFromMapDelta c sortcol newdata olddata interval with
  | .error p => .error p
  | .ok (rows, _) => .ok (columnnames, rows)

/-- The number of non-OMIT descriptors in a registry. -/
def nonOmitCount (c : Columns) : Nat :=
  List.countP (fun kv => decide (kv.2.name ≠ "OMIT")) c

/-- How many of the given field names render to a cell under registry c. -/
def countNonOmitFields (c : Columns) (fields : List String) : Nat :=
  List.countP (fun f => decide ((c.get f).name ≠ "OMIT")) fields

/-- The designated sort column as the ColumnInfo loop computes it: the last
registry entry carrying a sort mode other than none, else the starting value
(the first field's name). -/
def designatedSort (srt : String) : Columns → String
  | [] => srt
  | (f, cd) :: rest => designatedSort (if cd.sort ≠ sortType.sortNone then f else srt) rest

/-! ### General lemmas about the embedding -/

theorem get_cons_self (f : String) (cd : columndetails) (rest : Columns) :
    Columns.get ((f, cd) :: rest) f = cd := by
  simp [Columns.get, List.lookup]

theorem get_cons_ne (f g : String) (cd : columndetails) (rest : Columns) (h : g ≠ f) :
    Columns.get ((f, cd) :: rest) g = Columns.get rest g := by
  have hb : (g == f) = false := beq_eq_false_iff_ne.mpr h
  simp [Columns.get, List.lookup, hb]


theorem fsub_eq (a b : ℚ) : fsub a b = a - b := by
  have ha : (a.den : ℚ) ≠ 0 := by exact_mod_cast a.den_ne_zero
  have hb : (b.den : ℚ) ≠ 0 := by exact_mod_cast b.den_ne_zero
  rw [fsub, Rat.divInt_eq_div]
  push_cast
  conv_rhs => rw [← Rat.num_div_den a, ← Rat.num_div_den b]
  rw [div_sub_div _ _ ha hb]
  congr 1
  ring

theorem fdiv_eq (a b : ℚ) (hb : b ≠ 0) : fdiv a b = a / b := by
  have ha : (a.den : ℚ) ≠ 0 := by exact_mod_cast a.den_ne_zero
  have hbd : (b.den : ℚ) ≠ 0 := by exact_mod_cast b.den_ne_zero
  have hbn : (b.num : ℚ) ≠ 0 := by exact_mod_cast Rat.num_ne_zero.mpr hb
  rw [fdiv, Rat.divInt_eq_div]
  push_cast
  conv_rhs => rw [← Rat.num_div_den a, ← Rat.num_div_den b]
  field_simp

theorem divInt_one_eq (n : Int) : Rat.divInt n 1 = (n : ℚ) := by
  simp [Rat.divInt_eq_div]

theorem insertRow_perm (less : List String → List String → Bool) (x : List String)
    (l : List (List String)) : (insertRow less x l).Perm (x :: l) := by
  induction l with
  | nil => exact List.Perm.refl _
  | cons y ys ih =>
      by_cases h : less x y
      · simp [insertRow, h]
      · simp only [insertRow, h, Bool.false_eq_true, if_false]
        exact (ih.cons y).trans (List.Perm.swap x y ys)

theorem sortSlice_perm (less : List String → List String → Bool)
    (l : List (List String)) : (sortSlice less l).Perm l := by
  induction l with
  | nil => exact List.Perm.refl _
  | cons x xs ih => exact (insertRow_perm less x _).trans (ih.cons x)

theorem sortRowsCore_ok (st : sortType) (sortby : Nat) (rows : List (List String))
    (h : ∀ r ∈ rows, sortby < r.length) :
    ∃ rows2, sortRowsCore st sortby rows = .ok rows2 ∧ rows2.Perm rows := by
  unfold sortRowsCore
  by_cases h1 : rows.length ≤ 1
  · exact ⟨rows, by simp [h1], List.Perm.refl _⟩
  · have h2 : rows.all (fun r => decide (sortby < r.length)) = true := by
      simp only [List.all_eq_true, decide_eq_true_eq]
      exact h
    refine ⟨sortSlice (rowLess st sortby) rows, ?_, sortSlice_perm _ _⟩
    simp [h1, h2]

theorem sortRowsCore_perm (st : sortType) (sortby : Nat)
    (rows rows2 : List (List String)) (h : sortRowsCore st sortby rows = .ok rows2) :
    rows2.Perm rows := by
  unfold sortRowsCore at h
  split at h
  · cases h
    exact List.Perm.refl _
  · split at h
    · cases h
      exact sortSlice_perm _ _
    · cases h

theorem splitComma_no_comma (a : List Char) (h : ',' ∉ a) : splitComma a = [a] := by
  induction a with
  | nil => rfl
  | cons ch rest ih =>
      have h1 : ch ≠ ',' := fun he => h (he ▸ List.mem_cons_self ch rest)
      have h2 : ',' ∉ rest := fun hm => h (List.mem_cons_of_mem ch hm)
      simp [splitComma, h1, ih h2]

theorem splitComma_append (a b : List Char) (h : ',' ∉ a) :
    splitComma (a ++ ',' :: b) = a :: splitComma b := by
  induction a with
  | nil => simp [splitComma]
  | cons ch rest ih =>
      have h1 : ch ≠ ',' := fun he => h (he ▸ List.mem_cons_self ch rest)
      have h2 : ',' ∉ rest := fun hm => h (List.mem_cons_of_mem ch hm)
      have hnonnil : splitComma (rest ++ ',' :: b) = rest :: splitComma b := ih h2
      simp [splitComma, h1, hnonnil]

theorem splitEq_none (t : List Char) (h : '=' ∉ t) : splitEq t = none := by
  induction t with
  | nil => rfl
  | cons ch rest ih =>
      have h1 : ch ≠ '=' := fun he => h (he ▸ List.mem_cons_self ch rest)
      have h2 : '=' ∉ rest := fun hm => h (List.mem_cons_of_mem ch hm)
      simp [splitEq, h1, ih h2]

theorem splitEq_append (a b : List Char) (h : '=' ∉ a) :
    splitEq (a ++ '=' :: b) = some (a, b) := by
  induction a with
  | nil => simp [splitEq]
  | cons ch rest ih =>
      have h1 : ch ≠ '=' := fun he => h (he ▸ List.mem_cons_self ch rest)
      have h2 : '=' ∉ rest := fun hm => h (List.mem_cons_of_mem ch hm)
      simp [splitEq, h1, ih h2]

theorem strmk_toList (s : String) : String.mk s.toList = s := rfl

theorem ciLoop_ok (sh : List (String × Option String)) :
    ∀ (srt : String) (i : Nat) (cols : Columns) (names : List String) (srtOut : String),
      ciLoop srt sh i = .ok (cols, names, srtOut, none) →
      cols.map Prod.fst = sh.map Prod.fst ∧
      names = cols.filterMap
        (fun kv => if kv.2.name = "OMIT" then none else some kv.2.name) ∧
      (∀ j (hj : j < cols.length), (List.get cols ⟨j, hj⟩).2.number = i + j) ∧
      srtOut = designatedSort srt cols := by
  induction sh with
  | nil =>
      intro srt i cols names srtOut h
      simp only [ciLoop, Except.ok.injEq, Prod.mk.injEq] at h
      obtain ⟨h1, h2, h3, -⟩ := h
      subst h1; subst h2; subst h3
      simp [designatedSort]
  | cons hd rest ih =>
      obtain ⟨fname, otag⟩ := hd
      intro srt i cols names srtOut h
      cases otag with
      | none =>
          cases hrec : ciLoop srt rest (i + 1) with
          | error p => rw [ciLoop, hrec] at h; cases h
          | ok tup =>
              obtain ⟨cols2, names2, srtOut2, e2⟩ := tup
              rw [ciLoop, hrec] at h
              simp only [Except.ok.injEq, Prod.mk.injEq] at h
              obtain ⟨h1, h2, h3, h4⟩ := h
              subst h4
              obtain ⟨ih1, ih2, ih3, ih4⟩ := ih srt (i + 1) cols2 names2 srtOut2 hrec
              subst h1; subst h2; subst h3
              refine ⟨by simp [ih1], ?_, ?_, by simp [designatedSort, ih4]⟩
              · by_cases ho : fname = "OMIT" <;>
                  simp [List.filterMap_cons, ho, ih2]
              · intro j hj
                cases j with
                | zero => simp
                | succ j =>
                    simp only [List.get_cons_succ]
                    rw [ih3 j (by simpa using hj)]
                    omega
      | some tg =>
          cases hpt : parseTags fname tg with
          | error p => rw [ciLoop, hpt] at h; cases h
          | ok pr =>
              obtain ⟨cd, oe⟩ := pr
              cases oe with
              | some e => rw [ciLoop, hpt] at h; simp at h
              | none =>
                  cases hrec : ciLoop (if cd.sort ≠ sortType.sortNone then fname else srt)
                      rest (i + 1) with
                  | error p =>
                      rw [ciLoop, hpt] at h
                      simp only [ne_eq] at h hrec
                      rw [hrec] at h; cases h
                  | ok tup =>
                      obtain ⟨cols2, names2, srtOut2, e2⟩ := tup
                      rw [ciLoop, hpt] at h
                      simp only [ne_eq] at h hrec
                      rw [hrec] at h
                      simp only [Except.ok.injEq, Prod.mk.injEq] at h
                      obtain ⟨h1, h2, h3, h4⟩ := h
                      subst h4
                      obtain ⟨ih1, ih2, ih3, ih4⟩ :=
                        ih (if cd.sort ≠ sortType.sortNone then fname else srt) (i + 1)
                          cols2 names2 srtOut2 hrec
                      subst h1; subst h2; subst h3
                      refine ⟨by simp [ih1], ?_, ?_, ?_⟩
                      · by_cases ho : cd.name = "OMIT" <;>
                          simp [List.filterMap_cons, ho, ih2]
                      · intro j hj
                        cases j with
                        | zero => simp
                        | succ j =>
                            simp only [List.get_cons_succ]
                            rw [ih3 j (by simpa using hj)]
                            omega
                      · by_cases hs : cd.sort = sortType.sortNone <;>
                          simp [designatedSort, ih4, hs]

theorem omit_not_mem_names (c : Columns) :
    "OMIT" ∉ c.filterMap (fun kv => if kv.2.name = "OMIT" then none else some kv.2.name) := by
  intro hmem
  rcases List.mem_filterMap.mp hmem with ⟨kv, hkv, he⟩
  by_cases h : kv.2.name = "OMIT" <;> simp [h] at he

theorem ciLoop_allok (sh : List (String × Option String)) :
    ∀ (srt : String) (i : Nat),
      (∀ f tg, (f, some tg) ∈ sh → ∃ cd, parseTags f tg = .ok (cd, none)) →
      ∃ cols names, ciLoop srt sh i = .ok (cols, names, designatedSort srt cols, none) := by
  induction sh with
  | nil =>
      intro srt i _
      exact ⟨[], [], by simp [ciLoop, designatedSort]⟩
  | cons hd rest ih =>
      obtain ⟨fname, otag⟩ := hd
      intro srt i hok
      cases otag with
      | none =>
          obtain ⟨cols2, names2, hrec⟩ :=
            ih srt (i + 1) (fun f tg hm => hok f tg (List.mem_cons_of_mem _ hm))
          refine ⟨(fname, { tags := "", name := fname, number := i, format := "%v",
                            sort := sortType.sortNone }) :: cols2,
                  (if fname = "OMIT" then names2 else fname :: names2), ?_⟩
          simp [ciLoop, hrec, designatedSort]
      | some tg =>
          obtain ⟨cd, hpt⟩ := hok fname tg (List.mem_cons_self _ _)
          obtain ⟨cols2, names2, hrec⟩ :=
            ih (if cd.sort ≠ sortType.sortNone then fname else srt) (i + 1)
              (fun f tg2 hm => hok f tg2 (List.mem_cons_of_mem _ hm))
          refine ⟨(fname, { cd with number := i }) :: cols2,
                  (if cd.name = "OMIT" then names2 else cd.name :: names2), ?_⟩
          rw [ciLoop, hpt]
          simp only [ne_eq] at hrec ⊢
          rw [hrec]
          by_cases hs : cd.sort = sortType.sortNone <;> simp [designatedSort, hs]

theorem get_key_at (c : Columns) : ∀ (j : Nat) (hj : j < c.length),
    (c.map Prod.fst).Nodup →
    Columns.get c (List.get c ⟨j, hj⟩).1 = (List.get c ⟨j, hj⟩).2 := by
  induction c with
  | nil => intro j hj _; exact absurd hj (by simp)
  | cons hd rest ih =>
      intro j hj hnd
      obtain ⟨f, cd⟩ := hd
      cases j with
      | zero => exact get_cons_self f cd rest
      | succ j =>
          have hj2 : j < rest.length := by simpa using hj
          have hmem : (List.get rest ⟨j, hj2⟩).1 ∈ rest.map Prod.fst :=
            List.mem_map_of_mem Prod.fst (List.get_mem rest j hj2)
          have hne : (List.get rest ⟨j, hj2⟩).1 ≠ f := by
            intro he
            exact (List.nodup_cons.mp (by simpa using hnd)).1 (he ▸ hmem)
          rw [List.get_cons_succ, get_cons_ne f _ cd rest hne]
          exact ih j hj2 (List.nodup_cons.mp (by simpa using hnd)).2

theorem renderedIndex_at (c : Columns) : ∀ (j : Nat) (hj : j < c.length),
    (c.map Prod.fst).Nodup →
    (∀ k (hk : k < j), (List.get c ⟨k, Nat.lt_trans hk hj⟩).2.name ≠ "OMIT") →
    renderedIndex c (List.get c ⟨j, hj⟩).1 = j := by
  induction c with
  | nil => intro j hj _ _; exact absurd hj (by simp)
  | cons hd rest ih =>
      intro j hj hnd hpre
      obtain ⟨f, cd⟩ := hd
      cases j with
      | zero => simp [renderedIndex]
      | succ j =>
          have hj2 : j < rest.length := by simpa using hj
          have hmem : (List.get rest ⟨j, hj2⟩).1 ∈ rest.map Prod.fst :=
            List.mem_map_of_mem Prod.fst (List.get_mem rest j hj2)
          have hne : ¬ (f = (List.get rest ⟨j, hj2⟩).1) := by
            intro he
            exact (List.nodup_cons.mp (by simpa using hnd)).1 (he ▸ hmem)
          have homit : cd.name ≠ "OMIT" := by
            have := hpre 0 (Nat.succ_pos j)
            simpa using this
          have hpre2 : ∀ k (hk : k < j),
              (List.get rest ⟨k, Nat.lt_trans hk hj2⟩).2.name ≠ "OMIT" := by
            intro k hk
            have := hpre (k + 1) (by omega)
            simpa using this
          have ihe := ih j hj2 (List.nodup_cons.mp (by simpa using hnd)).2 hpre2
          rw [List.get_cons_succ]
          rw [show renderedIndex ((f, cd) :: rest) (List.get rest ⟨j, hj2⟩).1 =
              (if f = (List.get rest ⟨j, hj2⟩).1 then 0
               else (if cd.name = "OMIT" then 0 else 1) +
                 renderedIndex rest (List.get rest ⟨j, hj2⟩).1) from rfl]
          rw [if_neg hne, if_neg homit, ihe]
          omega

theorem plainCells_length (c : Columns) (st : GoStruct) :
    (plainCells c st).length = st.countP (fun kv => decide ((c.get kv.1).name ≠ "OMIT")) := by
  induction st with
  | nil => rfl
  | cons kv rest ih =>
      obtain ⟨f, v⟩ := kv
      by_cases h : (Columns.get c f).name = "OMIT" <;>
        simp [plainCells, h, List.countP_cons, ih]

theorem countNonOmitFields_self (c : Columns) (hnd : (c.map Prod.fst).Nodup) :
    countNonOmitFields c (c.map Prod.fst) = nonOmitCount c := by
  induction c with
  | nil => rfl
  | cons hd rest ih =>
      obtain ⟨f, cd⟩ := hd
      have hnotin : f ∉ rest.map Prod.fst := (List.nodup_cons.mp (by simpa using hnd)).1
      have hnd2 : (rest.map Prod.fst).Nodup := (List.nodup_cons.mp (by simpa using hnd)).2
      have hcongr :
          List.countP (fun g => decide ((Columns.get ((f, cd) :: rest) g).name ≠ "OMIT"))
            (rest.map Prod.fst) =
          List.countP (fun g => decide ((Columns.get rest g).name ≠ "OMIT"))
            (rest.map Prod.fst) := by
        apply List.countP_congr
        intro g hg
        rw [get_cons_ne f g cd rest (fun he => hnotin (he ▸ hg))]
      simp only [countNonOmitFields, nonOmitCount, List.map_cons, List.countP_cons] at *
      rw [hcongr, ih hnd2, get_cons_self]

theorem deltaCellsGo_ok (c : Columns) (secs : ℚ) :
    ∀ (st : GoStruct) (olds : List GoValue),
      olds.map GoValue.kind = st.map (fun kv => kv.2.kind) →
      ∃ cells, deltaCellsGo c secs st olds = .ok cells ∧
        cells.length = st.countP (fun kv => decide ((c.get kv.1).name ≠ "OMIT")) := by
  intro st
  induction st with
  | nil => intro olds _; exact ⟨[], rfl, rfl⟩
  | cons kv rest ih =>
      obtain ⟨f, v⟩ := kv
      intro olds h
      cases olds with
      | nil => simp at h
      | cons o otail =>
          simp only [List.map_cons, List.cons.injEq] at h
          obtain ⟨hk, ht⟩ := h
          obtain ⟨cells, hc, hl⟩ := ih otail ht
          by_cases homit : (Columns.get c f).name = "OMIT"
          · refine ⟨cells, ?_, ?_⟩
            · simpa [deltaCellsGo, homit] using hc
            · simp [List.countP_cons, homit, hl]
          · refine ⟨deltaCell c secs f v o :: cells, ?_, ?_⟩
            · simp [deltaCellsGo, homit, hk, hc]
            · simp [List.countP_cons, homit, hl]

theorem deltaCellsGo_length (c : Columns) (secs : ℚ) :
    ∀ (st : GoStruct) (olds : List GoValue) (cells : List String),
      deltaCellsGo c secs st olds = .ok cells →
      cells.length = st.countP (fun kv => decide ((c.get kv.1).name ≠ "OMIT")) := by
  intro st
  induction st with
  | nil =>
      intro olds cells h
      simp only [deltaCellsGo, Except.ok.injEq] at h
      subst h
      rfl
  | cons kv rest ih =>
      obtain ⟨f, v⟩ := kv
      intro olds cells h
      by_cases homit : (Columns.get c f).name = "OMIT"
      · simp only [deltaCellsGo, homit, if_true] at h
        rw [ih olds.tail cells h]
        simp [List.countP_cons, homit]
      · cases olds with
        | nil => simp [deltaCellsGo, homit] at h
        | cons o otail =>
            by_cases hkind : o.kind = v.kind
            · simp only [deltaCellsGo, homit, if_false, hkind, ne_eq, not_true_eq_false,
                ite_false] at h
              cases hrec : deltaCellsGo c secs rest otail with
              | error p => rw [hrec] at h; cases h
              | ok cells2 =>
                  rw [hrec] at h
                  simp only [Except.ok.injEq] at h
                  subst h
                  simp [List.countP_cons, homit, ih otail cells2 hrec]
            · simp only [deltaCellsGo, homit, if_false, hkind, ne_eq, not_false_eq_true,
                ite_true] at h
              cases h

theorem dLoop_ok (c : Columns) (secs : ℚ) (olddata : List (String × GoStruct)) (n : Nat) :
    ∀ (newdata : List (String × GoStruct)),
      (∀ kv ∈ newdata, ∃ cells,
        deltaCellsGo c secs kv.2 ((rowFromStruct (List.lookup kv.1 olddata)).1) = .ok cells ∧
        cells.length = n) →
      ∃ rows, dLoop c secs olddata newdata = .ok (rows, none) ∧
        rows.length = newdata.length ∧ ∀ r ∈ rows, r.length = n := by
  intro newdata
  induction newdata with
  | nil => intro _; exact ⟨[], rfl, rfl, by simp⟩
  | cons kv rest ih =>
      intro hall
      obtain ⟨k, st⟩ := kv
      obtain ⟨cells, hc, hl⟩ := hall (k, st) (List.mem_cons_self _ _)
      obtain ⟨rows, hr, hlen, hrows⟩ := ih (fun kv2 hm => hall kv2 (List.mem_cons_of_mem _ hm))
      refine ⟨cells :: rows, ?_, by simp [hlen], ?_⟩
      · simp [dLoop, hc, hr]
      · intro r hr2
        rcases List.mem_cons.mp hr2 with h1 | h2
        · exact h1 ▸ hl
        · exact hrows r h2

theorem dLoop_rows (c : Columns) (secs : ℚ) (olddata : List (String × GoStruct)) :
    ∀ (newdata : List (String × GoStruct)) (rows : List (List String)) (e : Option GoErr),
      dLoop c secs olddata newdata = .ok (rows, e) →
      ∀ r ∈ rows, ∃ kv, kv ∈ newdata ∧
        deltaCellsGo c secs kv.2 ((rowFromStruct (List.lookup kv.1 olddata)).1) = .ok r := by
  intro newdata
  induction newdata with
  | nil =>
      intro rows e h r hr
      simp only [dLoop, Except.ok.injEq, Prod.mk.injEq] at h
      obtain ⟨h1, -⟩ := h
      subst h1
      cases hr
  | cons kv rest ih =>
      obtain ⟨k, st⟩ := kv
      intro rows e h r hr
      cases hdc : deltaCellsGo c secs st ((rowFromStruct (List.lookup k olddata)).1) with
      | error p =>
          cases p with
          | panic => rw [dLoop, hdc] at h; cases h
          | mismatch =>
              rw [dLoop, hdc] at h
              simp only [Except.ok.injEq, Prod.mk.injEq] at h
              obtain ⟨h1, -⟩ := h
              subst h1
              cases hr
      | ok cells =>
          cases hrec : dLoop c secs olddata rest with
          | error p => rw [dLoop, hdc] at h; rw [hrec] at h; cases h
          | ok pr =>
              obtain ⟨rows2, e2⟩ := pr
              rw [dLoop, hdc] at h
              rw [hrec] at h
              simp only [Except.ok.injEq, Prod.mk.injEq] at h
              obtain ⟨h1, h2⟩ := h
              subst h1
              rcases List.mem_cons.mp hr with hh | hh
              · exact ⟨(k, st), List.mem_cons_self _ _, hh ▸ hdc⟩
              · obtain ⟨kv2, hm, hd⟩ := ih rows2 e2 hrec r hh
                exact ⟨kv2, List.mem_cons_of_mem _ hm, hd⟩

/-! ### Concrete record shapes and registries used by the claim theorems -/

/-- The registry ColumnInfo derives from the one-field shape of the spec's
delta examples: a single untagged field `count`. -/
def countCols : Columns :=
  [("count", { tags := "", name := "count", number := 0, format := "%v", sort := .sortNone })]

theorem countCols_derived :
    ColumnInfo [("count", none)] = .ok (countCols, ["count"], "count", none) := by rfl

/-- A shape whose OMIT column precedes the designated sort column B. -/
def shape1 : List (String × Option String) :=
  [("A", some "OMIT"), ("B", some "sort=+"), ("C", none)]

/-- The registry ColumnInfo derives from shape1. -/
def cols1 : Columns :=
  [("A", { tags := "OMIT", name := "OMIT", number := 0, format := "%v", sort := .sortNone }),
   ("B", { tags := "sort=+", name := "B", number := 1, format := "%v", sort := .sortAsc }),
   ("C", { tags := "", name := "C", number := 2, format := "%v", sort := .sortNone })]

theorem cols1_derived : ColumnInfo shape1 = .ok (cols1, ["B", "C"], "B", none) := by rfl

/-- Rows built (without sorting) from two records of shape1. -/
def rows1 : List (List String) :=
  RowsFromSlice cols1
    [[("A", .int 1), ("B", .str "a"), ("C", .str "z")],
     [("A", .int 1), ("B", .str "b"), ("C", .str "y")]]

/-- A shape whose only rendered column is the sort column B, preceded by an
OMIT column, so B's struct index 1 is out of range in the rendered rows. -/
def shape9 : List (String × Option String) := [("A", some "OMIT"), ("B", some "sort=+")]

/-- The registry ColumnInfo derives from shape9. -/
def cols9 : Columns :=
  [("A", { tags := "OMIT", name := "OMIT", number := 0, format := "%v", sort := .sortNone }),
   ("B", { tags := "sort=+", name := "B", number := 1, format := "%v", sort := .sortAsc })]

theorem cols9_derived : ColumnInfo shape9 = .ok (cols9, ["B"], "B", none) := by rfl

/-- A shape with an OMIT field h followed by an untagged numeric field. -/
def shape8 : List (String × Option String) := [("h", some "OMIT"), ("count", none)]

/-- The registry ColumnInfo derives from shape8 (designated sort column is the
first field, h, since no field declares a sort mode). -/
def cols8 : Columns :=
  [("h", { tags := "OMIT", name := "OMIT", number := 0, format := "%v", sort := .sortNone }),
   ("count", { tags := "", name := "count", number := 1, format := "%v", sort := .sortNone })]

theorem cols8_derived : ColumnInfo shape8 = .ok (cols8, ["count"], "h", none) := by rfl

/-- The registry for a single field v tagged sort=-num. -/
def numCols : Columns :=
  [("v", { tags := "sort=-num", name := "v", number := 0, format := "%v",
           sort := .sortDescNum })]

theorem numCols_derived :
    ColumnInfo [("v", some "sort=-num")] = .ok (numCols, ["v"], "v", none) := by rfl

/-- The registry for a single untagged field a. -/
def aCols : Columns :=
  [("a", { tags := "", name := "a", number := 0, format := "%v", sort := .sortNone })]

theorem aCols_derived :
    ColumnInfo [("a", none)] = .ok (aCols, ["a"], "a", none) := by rfl

/-! ### Claim theorems -/

/-- Claim C6 (code bug): the Tag Parser maps sort=-num to DescendingNumeric,
sort=+ to Ascending and sort=num to AscendingNumeric as the claim says, but
the clause "sort=" alone does not produce Ascending: the code indexes the byte
after '=' unconditionally and panics with an index out of range. -/
theorem C6_sort_clause_behavior :
    parseTags "x" "sort=-num" =
      .ok ({ tags := "sort=-num", name := "x", number := 0, format := "%v",
             sort := .sortDescNum }, none) ∧
    parseTags "x" "sort=+" =
      .ok ({ tags := "sort=+", name := "x", number := 0, format := "%v",
             sort := .sortAsc }, none) ∧
    parseTags "x" "sort=-" =
      .ok ({ tags := "sort=-", name := "x", number := 0, format := "%v",
             sort := .sortDesc }, none) ∧
    parseTags "x" "sort=num" =
      .ok ({ tags := "sort=num", name := "x", number := 0, format := "%v",
             sort := .sortAscNum }, none) ∧
    parseTags "x" "sort=" = .error .outOfRange := by
  refine ⟨by rfl, by rfl, by rfl, by rfl, by rfl⟩

/-- Claim C7 (counterexample): a tag with two name-only clauses whose first
clause equals the field name parses successfully (display name becomes the
second clause) instead of failing with a configuration error. -/
theorem C7_counterexample :
    parseTags "A" "A,B" =
      .ok ({ tags := "A,B", name := "B", number := 0, format := "%v",
             sort := .sortNone }, none) := by rfl

/-- Claim C2 (counterexample): in delta mode a key present only in the current
collection does not simply contribute no row: rowFromStruct's error for the
missing old row is discarded and indexing the empty old value list panics, so
the build fails with an index out of range. -/
theorem C2_counterexample :
    RowsFromMapDelta countCols "count" [("k", [("count", GoValue.int 1)])] [] 0 =
      .error .outOfRange := by rfl

/-- Claim C3 (counterexample): a kind mismatch does raise the type-mismatch
error inside RowsFromMapDelta, but UpdateTableFromMapDelta discards that error
and still publishes the partially built (here empty) table to the sink, so a
table IS produced for that build. -/
theorem C3_counterexample :
    RowsFromMapDelta countCols "count"
      [("k", [("count", GoValue.int 110)])] [("k", [("count", GoValue.str "oops")])] 0 =
      .ok ([], some .typeMismatch) ∧
    UpdateTableFromMapDelta countCols ["count"] "count"
      [("k", [("count", GoValue.int 110)])] [("k", [("count", GoValue.str "oops")])] 0 =
      .ok (["count"], []) := by
  refine ⟨by rfl, by rfl⟩

/-- Claim C3 (amended): for every pair of same-field values of different
kinds, RowsFromMapDelta stops with the type-mismatch error and builds no row
for the offending key, but the caller UpdateTableFromMapDelta ignores the
returned error and still publishes the partial (here empty) table. -/
theorem C3_mismatch_error_still_published (v w : GoValue) (h : v.kind ≠ w.kind) :
    RowsFromMapDelta countCols "count" [("k", [("count", v)])] [("k", [("count", w)])] 0 =
      .ok ([], some .typeMismatch) ∧
    UpdateTableFromMapDelta countCols ["count"] "count"
      [("k", [("count", v)])] [("k", [("count", w)])] 0 = .ok (["count"], []) := by
  have hne : w.kind ≠ v.kind := Ne.symm h
  have hdc : deltaCellsGo countCols 1 [("count", v)] [w] = .error .mismatch := by
    simp [deltaCellsGo, Columns.get, List.lookup, hne]
  constructor
  · simp [RowsFromMapDelta, dLoop, rowFromStruct, List.lookup, hdc]
  · simp [UpdateTableFromMapDelta, RowsFromMapDelta, dLoop, rowFromStruct, List.lookup, hdc]

/-- Claim C3 (witness): the amended behaviour at the spec's own example,
current count 110 against previous count "oops". -/
theorem C3_mismatch_witness :
    (GoValue.int 110).kind ≠ (GoValue.str "oops").kind ∧
    (RowsFromMapDelta countCols "count"
      [("k", [("count", GoValue.int 110)])] [("k", [("count", GoValue.str "oops")])] 0 =
      .ok ([], some .typeMismatch) ∧
    UpdateTableFromMapDelta countCols ["count"] "count"
      [("k", [("count", GoValue.int 110)])] [("k", [("count", GoValue.str "oops")])] 0 =
      .ok (["count"], [])) :=
  ⟨by decide, C3_mismatch_error_still_published (GoValue.int 110) (GoValue.str "oops")
    (by decide)⟩

/-- Claim C9 (counterexample): on rows legitimately built from a shape whose
OMIT column precedes the sort column, the Row Sorter does fail: the sort
column's stored index 1 is out of range for the one-cell rendered rows. -/
theorem C9_counterexample :
    RowsFromSlice cols9
      [[("A", GoValue.int 1), ("B", GoValue.str "x")],
       [("A", GoValue.int 2), ("B", GoValue.str "y")]] = [["x"], ["y"]] ∧
    sortRows cols9 [["x"], ["y"]] "B" = .error .outOfRange := by
  refine ⟨by rfl, by rfl⟩

/-- Claim C9 (amended): whenever every row has a cell at the sort descriptor's
stored index (in particular whenever no OMIT column precedes the sort column,
and also for a sort column name missing from the registry, whose zero value
gives index 0), the Row Sorter succeeds and returns a permutation of the rows;
malformed numeric text sorts as 0, so DescendingNumeric on cells
["10"], ["2"], ["x"] returns them in that order. -/
theorem C9_sort_safe_when_in_range (c : Columns) (sortcol : String)
    (rows : List (List String))
    (h : ∀ r ∈ rows, (c.get sortcol).number < r.length) :
    (∃ rows2, sortRows c rows sortcol = .ok rows2 ∧ rows2.Perm rows) ∧
    sortRows numCols [["10"], ["2"], ["x"]] "v" = .ok [["10"], ["2"], ["x"]] := by
  exact ⟨sortRowsCore_ok _ _ rows h, by rfl⟩

/-- Claim C9 (witness): the amended statement applied to the numeric example
rows themselves. -/
theorem C9_sort_safe_witness :
    (∀ r ∈ [["10"], ["2"], ["x"]], (numCols.get "v").number < r.length) ∧
    ((∃ rows2, sortRows numCols [["10"], ["2"], ["x"]] "v" = .ok rows2 ∧
        rows2.Perm [["10"], ["2"], ["x"]]) ∧
      sortRows numCols [["10"], ["2"], ["x"]] "v" = .ok [["10"], ["2"], ["x"]]) :=
  ⟨by decide, C9_sort_safe_when_in_range numCols "v" [["10"], ["2"], ["x"]] (by decide)⟩

/-- Claim C4 (counterexample): with a negative interval of minus one second the
divisor is not replaced by one second: the rendered delta cell for current 110,
previous 100 is "-10", while the divisor-of-one rule the claim states would
render "10". -/
theorem C4_counterexample :
    RowsFromMapDelta countCols "count"
      [("k", [("count", GoValue.int 110)])] [("k", [("count", GoValue.int 100)])]
      (-1000000000) = .ok ([["-10"]], none) ∧
    sprintf "%v" (GoValue.float (fdiv (fsub (Rat.divInt 110 1) (Rat.divInt 100 1)) 1)) =
      "10" := by
  refine ⟨by rfl, by rfl⟩

/-- Claim C4 (amended): for every pair of integer field values and every
interval, the delta cell is the field's format applied to
(current − previous) / seconds, where a zero (unspecified) interval uses
exactly one second but a negative interval is used as-is; in particular
current 110, previous 100 over 10 seconds renders "1". -/
theorem C4_delta_formula (a b interval : Int) :
    RowsFromMapDelta countCols "count"
      [("k", [("count", GoValue.int a)])] [("k", [("count", GoValue.int b)])] interval =
      .ok ([[sprintf "%v" (GoValue.float (((a : ℚ) - b) /
        (if interval = 0 then 1 else (interval : ℚ) / 1000000000)))]], none) ∧
    RowsFromMapDelta countCols "count"
      [("k", [("count", GoValue.int 110)])] [("k", [("count", GoValue.int 100)])]
      10000000000 = .ok ([["1"]], none) := by
  constructor
  · have main :
        RowsFromMapDelta countCols "count"
          [("k", [("count", GoValue.int a)])] [("k", [("count", GoValue.int b)])] interval =
        .ok ([[sprintf "%v" (GoValue.float (fdiv (fsub (Rat.divInt a 1) (Rat.divInt b 1))
          (if interval = 0 then 1 else Rat.divInt interval 1000000000)))]], none) := by
      rfl
    have harg : fdiv (fsub (Rat.divInt a 1) (Rat.divInt b 1))
        (if interval = 0 then 1 else Rat.divInt interval 1000000000) =
        ((a : ℚ) - b) / (if interval = 0 then 1 else (interval : ℚ) / 1000000000) := by
      by_cases hi : interval = 0
      · rw [if_pos hi, if_pos hi, fsub_eq, fdiv_eq _ _ one_ne_zero,
          divInt_one_eq, divInt_one_eq]
      · have hden : Rat.divInt interval 1000000000 ≠ 0 := by
          rw [Rat.divInt_eq_div]
          exact div_ne_zero (Int.cast_ne_zero.mpr hi) (by norm_num)
        rw [if_neg hi, if_neg hi, fsub_eq, fdiv_eq _ _ hden, divInt_one_eq, divInt_one_eq,
          Rat.divInt_eq_div]
        norm_num
    rw [main, harg]
  · rfl

/-- Claim C10: when several fields declare a non-None sort mode, schema
derivation does not fail; the sorting accumulator is overwritten in field
order, so the last registry entry with a sort mode other than None becomes
the designated sort column (designatedSort folds exactly that rule); on the
concrete shape below, field b overrides field a. -/
theorem C10_last_sort_field_wins (s0 : String × Option String)
    (srest : List (String × Option String))
    (hok : ∀ f tg, (f, some tg) ∈ s0 :: srest → ∃ cd, parseTags f tg = .ok (cd, none)) :
    (∃ cols names,
      ColumnInfo (s0 :: srest) = .ok (cols, names, designatedSort s0.1 cols, none)) ∧
    ColumnInfo [("a", some "sort=+"), ("b", some "sort=-")] =
      .ok ([("a", { tags := "sort=+", name := "a", number := 0, format := "%v",
                    sort := .sortAsc }),
            ("b", { tags := "sort=-", name := "b", number := 1, format := "%v",
                    sort := .sortDesc })], ["a", "b"], "b", none) := by
  constructor
  · obtain ⟨f0, t0⟩ := s0
    obtain ⟨cols, names, h⟩ := ciLoop_allok ((f0, t0) :: srest) f0 0 hok
    exact ⟨cols, names, by rw [ColumnInfo]; exact h⟩
  · rfl

/-- Claim C10 (witness): the theorem applied to the two-sort-field shape. -/
theorem C10_last_sort_field_witness :
    (∀ f tg, (f, some tg) ∈ [("a", some "sort=+"), ("b", some "sort=-")] →
      ∃ cd, parseTags f tg = .ok (cd, none)) ∧
    ((∃ cols names, ColumnInfo [("a", some "sort=+"), ("b", some "sort=-")] =
        .ok (cols, names, designatedSort "a" cols, none)) ∧
      ColumnInfo [("a", some "sort=+"), ("b", some "sort=-")] =
        .ok ([("a", { tags := "sort=+", name := "a", number := 0, format := "%v",
                      sort := .sortAsc }),
              ("b", { tags := "sort=-", name := "b", number := 1, format := "%v",
                      sort := .sortDesc })], ["a", "b"], "b", none)) := by
  have hok : ∀ f tg, (f, some tg) ∈ [("a", some "sort=+"), ("b", some "sort=-")] →
      ∃ cd, parseTags f tg = .ok (cd, none) := by
    intro f tg hm
    simp only [List.mem_cons, List.not_mem_nil, or_false, Prod.mk.injEq,
      Option.some.injEq] at hm
    rcases hm with ⟨h1, h2⟩ | ⟨h1, h2⟩ <;> subst h1 <;> subst h2
    · exact ⟨_, by rfl⟩
    · exact ⟨_, by rfl⟩
  exact ⟨hok, C10_last_sort_field_wins ("a", some "sort=+") [("b", some "sort=-")] hok⟩

/-- Claim C1 (counterexample): on rows built (unsorted) from shape1, whose
OMIT column A precedes the designated sort column B, the source sorter orders
by the cell at B's struct index 1 — the cell displayed under C — while the
sorter the spec describes (position among rendered cells, index 0) orders by
the cell displayed under B; the two orders differ. -/
theorem C1_counterexample :
    rows1 = [["a", "z"], ["b", "y"]] ∧
    sortRows cols1 rows1 "B" = .ok [["b", "y"], ["a", "z"]] ∧
    sortRowsSpec cols1 rows1 "B" = .ok [["a", "z"], ["b", "y"]] ∧
    sortRows cols1 rows1 "B" ≠ sortRowsSpec cols1 rows1 "B" := by
  refine ⟨by rfl, by rfl, by rfl, ?_⟩
  intro h
  rw [show sortRows cols1 rows1 "B" = .ok [["b", "y"], ["a", "z"]] from by rfl,
    show sortRowsSpec cols1 rows1 "B" = .ok [["a", "z"], ["b", "y"]] from by rfl] at h
  simp at h

/-- Claim C1 (amended): the sorter compares rows at the descriptor's stored
number, which ColumnInfo sets to the field's position in the source record
(OMIT fields included); this equals the position among the rendered cells —
and only then is the compared cell the one displayed under the sort column —
whenever no OMIT column precedes the sort column in the registry. -/
theorem C1_sorts_by_struct_ordinal (shape : List (String × Option String))
    (cols : Columns) (names : List String) (srt : String)
    (hci : ColumnInfo shape = .ok (cols, names, srt, none))
    (hnd : (shape.map Prod.fst).Nodup)
    (j : Nat) (hj : j < cols.length)
    (hpre : ∀ k (hk : k < j), (List.get cols ⟨k, Nat.lt_trans hk hj⟩).2.name ≠ "OMIT")
    (rows : List (List String)) :
    (Columns.get cols (List.get cols ⟨j, hj⟩).1).number = j ∧
    renderedIndex cols (List.get cols ⟨j, hj⟩).1 = j ∧
    sortRows cols rows (List.get cols ⟨j, hj⟩).1 =
      sortRowsSpec cols rows (List.get cols ⟨j, hj⟩).1 := by
  cases shape with
  | nil => rw [ColumnInfo] at hci; cases hci
  | cons s0 srest =>
      obtain ⟨f0, t0⟩ := s0
      rw [ColumnInfo] at hci
      obtain ⟨h1, h2, h3, h4⟩ := ciLoop_ok ((f0, t0) :: srest) f0 0 cols names srt hci
      have hndc : (cols.map Prod.fst).Nodup := by rw [h1]; exact hnd
      have hnum : (Columns.get cols (List.get cols ⟨j, hj⟩).1).number = j := by
        rw [get_key_at cols j hj hndc]
        simpa using h3 j hj
      have hri : renderedIndex cols (List.get cols ⟨j, hj⟩).1 = j :=
        renderedIndex_at cols j hj hndc hpre
      exact ⟨hnum, hri, by rw [sortRows, sortRowsSpec, hnum, hri]⟩

/-- The registry for shape [B sort=+, C]: no OMIT column precedes B. -/
def colsBC : Columns :=
  [("B", { tags := "sort=+", name := "B", number := 0, format := "%v", sort := .sortAsc }),
   ("C", { tags := "", name := "C", number := 1, format := "%v", sort := .sortNone })]

/-- Claim C1 (witness): the amended statement on a shape with no OMIT column
before the sort column B (index 0): source sorter and spec sorter agree. -/
theorem C1_sorts_by_struct_ordinal_witness :
    (ColumnInfo [("B", some "sort=+"), ("C", none)] =
      .ok (colsBC, ["B", "C"], "B", none)) ∧
    ((Columns.get colsBC "B").number = 0 ∧
      renderedIndex colsBC "B" = 0 ∧
      sortRows colsBC [["b", "y"], ["a", "z"]] "B" =
        sortRowsSpec colsBC [["b", "y"], ["a", "z"]] "B") :=
  ⟨by rfl,
    C1_sorts_by_struct_ordinal [("B", some "sort=+"), ("C", none)] colsBC ["B", "C"] "B"
      (by rfl) (by decide) 0 (by decide) (fun k hk => absurd hk (Nat.not_lt_zero k))
      [["b", "y"], ["a", "z"]]⟩

/-- Claim C8 (counterexample): an OMIT field is skipped before the kind check
and the delta math: with mismatched kinds in the OMIT field h (int 1 against
string "S"), the delta build neither fails nor involves h — it succeeds and
renders only the count delta. -/
theorem C8_counterexample :
    (GoValue.int 1).kind ≠ (GoValue.str "S").kind ∧
    RowsFromMapDelta cols8 "h"
      [("k", [("h", GoValue.int 1), ("count", GoValue.int 110)])]
      [("k", [("h", GoValue.str "S"), ("count", GoValue.int 100)])] 0 =
      .ok ([["10"]], none) := by
  refine ⟨by decide, by rfl⟩

/-- Claim C8 (amended): a field displayed as OMIT never appears in the derived
column-name list and is still projected by rowFromStruct, but in delta mode it
is skipped before the kind check and the delta arithmetic, so its values (of
any kinds) never influence the build: only the non-OMIT count cell is
rendered, as (a − b) / 1 second. -/
theorem C8_omit_projected_not_deltad (shape : List (String × Option String))
    (cols : Columns) (names : List String) (srt : String)
    (hci : ColumnInfo shape = .ok (cols, names, srt, none))
    (v w : GoValue) (a b : Int) :
    "OMIT" ∉ names ∧
    (rowFromStruct (some [("h", v), ("count", GoValue.int a)])).1 = [v, GoValue.int a] ∧
    RowsFromMapDelta cols8 "h"
      [("k", [("h", v), ("count", GoValue.int a)])]
      [("k", [("h", w), ("count", GoValue.int b)])] 0 =
      .ok ([[sprintf "%v" (GoValue.float (((a : ℚ) - b) / 1))]], none) := by
  refine ⟨?_, by rfl, ?_⟩
  · cases shape with
    | nil => rw [ColumnInfo] at hci; cases hci
    | cons s0 srest =>
        obtain ⟨f0, t0⟩ := s0
        rw [ColumnInfo] at hci
        obtain ⟨-, h2, -, -⟩ := ciLoop_ok ((f0, t0) :: srest) f0 0 cols names srt hci
        rw [h2]
        exact omit_not_mem_names cols
  · have main :
        RowsFromMapDelta cols8 "h"
          [("k", [("h", v), ("count", GoValue.int a)])]
          [("k", [("h", w), ("count", GoValue.int b)])] 0 =
        .ok ([[sprintf "%v" (GoValue.float (fdiv (fsub (Rat.divInt a 1) (Rat.divInt b 1))
          1))]], none) := by
      rfl
    have harg : fdiv (fsub (Rat.divInt a 1) (Rat.divInt b 1)) 1 = ((a : ℚ) - b) / 1 := by
      rw [fsub_eq, fdiv_eq _ _ one_ne_zero, divInt_one_eq, divInt_one_eq]
    rw [main, harg]

/-- Claim C8 (witness): the amended statement at shape8 with the mismatched
OMIT values int 1 and "S" and counts 110 and 100. -/
theorem C8_omit_projected_witness :
    (ColumnInfo shape8 = .ok (cols8, ["count"], "h", none)) ∧
    ("OMIT" ∉ ["count"] ∧
      (rowFromStruct (some [("h", GoValue.int 1), ("count", GoValue.int 110)])).1 =
        [GoValue.int 1, GoValue.int 110] ∧
      RowsFromMapDelta cols8 "h"
        [("k", [("h", GoValue.int 1), ("count", GoValue.int 110)])]
        [("k", [("h", GoValue.str "S"), ("count", GoValue.int 100)])] 0 =
        .ok ([[sprintf "%v" (GoValue.float (((110 : ℚ) - 100) / 1))]], none)) :=
  ⟨by rfl, C8_omit_projected_not_deltad shape8 cols8 ["count"] "h" (by rfl)
    (GoValue.int 1) (GoValue.str "S") 110 100⟩

theorem sortRows_eq (c : Columns) (rows : List (List String)) (sortcol : String) :
    sortRows c rows sortcol =
      sortRowsCore (c.get sortcol).sort (c.get sortcol).number rows := rfl

/-- RowsFromMapDelta when the key loop succeeds with no error: the rows are
sorted and returned. -/
theorem RowsFromMapDelta_via (c : Columns) (sortcol : String)
    (newdata olddata : List (String × GoStruct)) (interval : Int) (secs : ℚ)
    (hsecs : (if interval = 0 then (1 : ℚ) else Rat.divInt interval 1000000000) = secs)
    (rows rows2 : List (List String))
    (hd : dLoop c secs olddata newdata = .ok (rows, none))
    (hs : sortRows c rows sortcol = .ok rows2) :
    RowsFromMapDelta c sortcol newdata olddata interval = .ok (rows2, none) := by
  show (match dLoop c (if interval = 0 then (1 : ℚ) else Rat.divInt interval 1000000000)
          olddata newdata with
        | Except.error p => Except.error p
        | Except.ok (r1, some e) => Except.ok (r1, some e)
        | Except.ok (r1, none) =>
            match sortRows c r1 sortcol with
            | Except.error p => Except.error p
            | Except.ok r2 => Except.ok (r2, none)) = Except.ok (rows2, none)
  rw [hsecs, hd]
  show (match sortRows c rows sortcol with
        | Except.error p => Except.error p
        | Except.ok r2 => Except.ok (r2, none)) = Except.ok (rows2, none)
  rw [hs]

/-- RowsFromMapDelta when the key loop stops on the mismatch error: the rows
built so far are returned unsorted together with the error. -/
theorem RowsFromMapDelta_err (c : Columns) (sortcol : String)
    (newdata olddata : List (String × GoStruct)) (interval : Int) (secs : ℚ)
    (hsecs : (if interval = 0 then (1 : ℚ) else Rat.divInt interval 1000000000) = secs)
    (rows : List (List String)) (e : GoErr)
    (hd : dLoop c secs olddata newdata = .ok (rows, some e)) :
    RowsFromMapDelta c sortcol newdata olddata interval = .ok (rows, some e) := by
  show (match dLoop c (if interval = 0 then (1 : ℚ) else Rat.divInt interval 1000000000)
          olddata newdata with
        | Except.error p => Except.error p
        | Except.ok (r1, some e) => Except.ok (r1, some e)
        | Except.ok (r1, none) =>
            match sortRows c r1 sortcol with
            | Except.error p => Except.error p
            | Except.ok r2 => Except.ok (r2, none)) = Except.ok (rows, some e)
  rw [hsecs, hd]

/-- RowsFromMapDelta when the key loop succeeds but the sort panics. -/
theorem RowsFromMapDelta_sortpanic (c : Columns) (sortcol : String)
    (newdata olddata : List (String × GoStruct)) (interval : Int) (secs : ℚ)
    (hsecs : (if interval = 0 then (1 : ℚ) else Rat.divInt interval 1000000000) = secs)
    (rows : List (List String)) (p : GoPanic)
    (hd : dLoop c secs olddata newdata = .ok (rows, none))
    (hs : sortRows c rows sortcol = .error p) :
    RowsFromMapDelta c sortcol newdata olddata interval = .error p := by
  show (match dLoop c (if interval = 0 then (1 : ℚ) else Rat.divInt interval 1000000000)
          olddata newdata with
        | Except.error p => Except.error p
        | Except.ok (r1, some e) => Except.ok (r1, some e)
        | Except.ok (r1, none) =>
            match sortRows c r1 sortcol with
            | Except.error p => Except.error p
            | Except.ok r2 => Except.ok (r2, none)) = Except.error p
  rw [hsecs, hd]
  show (match sortRows c rows sortcol with
        | Except.error p => Except.error p
        | Except.ok r2 => Except.ok (r2, none)) = Except.error p
  rw [hs]

/-- RowsFromMapDelta when the key loop itself panics. -/
theorem RowsFromMapDelta_panic (c : Columns) (sortcol : String)
    (newdata olddata : List (String × GoStruct)) (interval : Int) (secs : ℚ)
    (hsecs : (if interval = 0 then (1 : ℚ) else Rat.divInt interval 1000000000) = secs)
    (p : GoPanic) (hd : dLoop c secs olddata newdata = .error p) :
    RowsFromMapDelta c sortcol newdata olddata interval = .error p := by
  show (match dLoop c (if interval = 0 then (1 : ℚ) else Rat.divInt interval 1000000000)
          olddata newdata with
        | Except.error p => Except.error p
        | Except.ok (r1, some e) => Except.ok (r1, some e)
        | Except.ok (r1, none) =>
            match sortRows c r1 sortcol with
            | Except.error p => Except.error p
            | Except.ok r2 => Except.ok (r2, none)) = Except.error p
  rw [hsecs, hd]

/-- Claim C2 (amended): when every key of the current collection also appears
in the previous one with a record of the same field names and per-field kinds,
delta build succeeds and produces exactly one row per current key; keys
present only in the previous collection are simply never visited.  (A key
present only in the current collection instead panics, see the
counterexample.)  The side condition on the sort index keeps the final sort
in range. -/
theorem C2_one_row_per_shared_key (c : Columns) (sortcol : String) (fields : List String)
    (newdata olddata : List (String × GoStruct)) (interval : Int)
    (hnew : ∀ kv ∈ newdata, kv.2.map Prod.fst = fields)
    (hold : ∀ kv ∈ newdata, ∃ ost, List.lookup kv.1 olddata = some ost ∧
      ost.map (fun fv => fv.2.kind) = kv.2.map (fun fv => fv.2.kind))
    (hsort : (c.get sortcol).number < countNonOmitFields c fields ∨ newdata.length ≤ 1) :
    ∃ rows, RowsFromMapDelta c sortcol newdata olddata interval = .ok (rows, none) ∧
      rows.length = newdata.length := by
  set secs : ℚ := if interval = 0 then 1 else Rat.divInt interval 1000000000 with hsecs
  have hall : ∀ kv ∈ newdata, ∃ cells,
      deltaCellsGo c secs kv.2 ((rowFromStruct (List.lookup kv.1 olddata)).1) = .ok cells ∧
      cells.length = countNonOmitFields c fields := by
    intro kv hm
    obtain ⟨ost, hl, hk⟩ := hold kv hm
    have hkinds : (ost.map Prod.snd).map GoValue.kind = kv.2.map (fun fv => fv.2.kind) := by
      rw [List.map_map]
      exact hk
    obtain ⟨cells, hc, hlen⟩ := deltaCellsGo_ok c secs kv.2 (ost.map Prod.snd) hkinds
    refine ⟨cells, ?_, ?_⟩
    · rw [hl]
      exact hc
    · rw [hlen]
      have h2 : countNonOmitFields c (kv.2.map Prod.fst) =
          List.countP (fun kv2 => decide ((c.get kv2.1).name ≠ "OMIT")) kv.2 := by
        rw [countNonOmitFields, List.countP_map]
        rfl
      rw [← h2, hnew kv hm]
  obtain ⟨rows, hd, hlen, hrows⟩ :=
    dLoop_ok c secs olddata (countNonOmitFields c fields) newdata hall
  have hin : ∀ r ∈ rows, (c.get sortcol).number < r.length ∨ rows.length ≤ 1 := by
    intro r hr
    cases hsort with
    | inl hlt => exact Or.inl (by rw [hrows r hr]; exact hlt)
    | inr hle => exact Or.inr (by rw [hlen]; exact hle)
  by_cases hone : rows.length ≤ 1
  · have hs1 : sortRows c rows sortcol = .ok rows := by
      rw [sortRows_eq]
      unfold sortRowsCore
      rw [if_pos hone]
    exact ⟨rows, RowsFromMapDelta_via c sortcol newdata olddata interval secs
      hsecs.symm rows rows hd hs1, hlen⟩
  · have hall2 : ∀ r ∈ rows, (c.get sortcol).number < r.length := by
      intro r hr
      rcases hin r hr with h1 | h2
      · exact h1
      · exact absurd h2 hone
    obtain ⟨rows2, hs, hperm⟩ :=
      sortRowsCore_ok (c.get sortcol).sort (c.get sortcol).number rows hall2
    have hs2 : sortRows c rows sortcol = .ok rows2 := by
      rw [sortRows_eq]
      exact hs
    exact ⟨rows2, RowsFromMapDelta_via c sortcol newdata olddata interval secs
      hsecs.symm rows rows2 hd hs2, by rw [hperm.length_eq, hlen]⟩

/-- Claim C2 (witness): two shared keys, matching shapes and kinds, build
exactly two rows. -/
theorem C2_one_row_per_shared_key_witness :
    (∀ kv ∈ [("k1", [("a", GoValue.int 1)]), ("k2", [("a", GoValue.int 2)])],
      (kv.2.map Prod.fst : List String) = ["a"]) ∧
    (∃ rows, RowsFromMapDelta aCols "a"
        [("k1", [("a", GoValue.int 1)]), ("k2", [("a", GoValue.int 2)])]
        [("k2", [("a", GoValue.int 5)]), ("k1", [("a", GoValue.int 3)])] 0 =
        .ok (rows, none) ∧
      rows.length = 2) := by
  refine ⟨by decide, ?_⟩
  have hold : ∀ kv ∈ [("k1", [("a", GoValue.int 1)]), ("k2", [("a", GoValue.int 2)])],
      ∃ ost, List.lookup kv.1
          [("k2", [("a", GoValue.int 5)]), ("k1", [("a", GoValue.int 3)])] = some ost ∧
        ost.map (fun fv => fv.2.kind) = kv.2.map (fun fv => fv.2.kind) := by
    intro kv hm
    simp only [List.mem_cons, List.not_mem_nil, or_false] at hm
    rcases hm with h | h <;> subst h
    · exact ⟨[("a", GoValue.int 3)], by rfl, by rfl⟩
    · exact ⟨[("a", GoValue.int 5)], by rfl, by rfl⟩
  exact C2_one_row_per_shared_key aCols "a" ["a"]
    [("k1", [("a", GoValue.int 1)]), ("k2", [("a", GoValue.int 2)])]
    [("k2", [("a", GoValue.int 5)]), ("k1", [("a", GoValue.int 3)])] 0
    (by decide) hold (Or.inl (by decide))

/-- Claim C4 (witness): the amended formula instantiated at the spec's
example, current 110, previous 100, interval 10 seconds. -/
theorem C4_delta_formula_witness :
    RowsFromMapDelta countCols "count"
      [("k", [("count", GoValue.int 110)])] [("k", [("count", GoValue.int 100)])]
      10000000000 =
      .ok ([[sprintf "%v" (GoValue.float (((110 : ℚ) - 100) /
        (if (10000000000 : Int) = 0 then 1 else ((10000000000 : Int) : ℚ) /
          1000000000)))]], none) :=
  (C4_delta_formula 110 100 10000000000).1

/-- Claim C5: for every registry derived from a record shape with distinct
field names and every table built from same-shaped data — direct mode over a
keyed collection, direct mode over a sequence, or delta mode — every produced
row has exactly as many rendered cells as the registry has non-OMIT
descriptors. -/
theorem C5_cells_match_nonomit (shape : List (String × Option String))
    (cols : Columns) (names : List String) (srt : String)
    (hci : ColumnInfo shape = .ok (cols, names, srt, none))
    (hnd : (shape.map Prod.fst).Nodup)
    (sortcol : String)
    (mdata : List (String × GoStruct))
    (hmdata : ∀ kv ∈ mdata, kv.2.map Prod.fst = shape.map Prod.fst)
    (sdata : List GoStruct)
    (hsdata : ∀ st ∈ sdata, st.map Prod.fst = shape.map Prod.fst)
    (newdata olddata : List (String × GoStruct)) (interval : Int)
    (hndata : ∀ kv ∈ newdata, kv.2.map Prod.fst = shape.map Prod.fst) :
    (∀ rows, RowsFromMap cols sortcol mdata = .ok rows →
      ∀ r ∈ rows, r.length = nonOmitCount cols) ∧
    (∀ r ∈ RowsFromSlice cols sdata, r.length = nonOmitCount cols) ∧
    (∀ rows e, RowsFromMapDelta cols sortcol newdata olddata interval = .ok (rows, e) →
      ∀ r ∈ rows, r.length = nonOmitCount cols) := by
  have hkeys : cols.map Prod.fst = shape.map Prod.fst := by
    cases shape with
    | nil => rw [ColumnInfo] at hci; cases hci
    | cons s0 srest =>
        obtain ⟨f0, t0⟩ := s0
        rw [ColumnInfo] at hci
        exact (ciLoop_ok ((f0, t0) :: srest) f0 0 cols names srt hci).1
  have hndc : (cols.map Prod.fst).Nodup := by rw [hkeys]; exact hnd
  have hcount : ∀ st : GoStruct, st.map Prod.fst = shape.map Prod.fst →
      List.countP (fun kv => decide ((cols.get kv.1).name ≠ "OMIT")) st =
        nonOmitCount cols := by
    intro st hst
    have h2 : countNonOmitFields cols (st.map Prod.fst) =
        List.countP (fun kv => decide ((cols.get kv.1).name ≠ "OMIT")) st := by
      rw [countNonOmitFields, List.countP_map]
      rfl
    rw [← h2, hst, ← hkeys, countNonOmitFields_self cols hndc]
  refine ⟨?_, ?_, ?_⟩
  · intro rows hrows r hr
    rw [RowsFromMap, sortRows_eq] at hrows
    have hperm := sortRowsCore_perm _ _ _ _ hrows
    obtain ⟨kv, hkv, hre⟩ := List.mem_map.mp (hperm.mem_iff.mp hr)
    rw [← hre, plainCells_length, hcount kv.2 (hmdata kv hkv)]
  · intro r hr
    obtain ⟨st, hst, hre⟩ := List.mem_map.mp hr
    rw [← hre, plainCells_length, hcount st (hsdata st hst)]
  · intro rows e h r hr
    cases hdl : dLoop cols (if interval = 0 then (1 : ℚ) else Rat.divInt interval 1000000000)
        olddata newdata with
    | error p =>
        rw [RowsFromMapDelta_panic cols sortcol newdata olddata interval _ rfl p hdl] at h
        cases h
    | ok pr =>
        obtain ⟨rows0, e0⟩ := pr
        have hmem : r ∈ rows0 := by
          cases e0 with
          | some e1 =>
              rw [RowsFromMapDelta_err cols sortcol newdata olddata interval _ rfl
                rows0 e1 hdl] at h
              simp only [Except.ok.injEq, Prod.mk.injEq] at h
              obtain ⟨h1, -⟩ := h
              exact h1.symm ▸ hr
          | none =>
              cases hsrt : sortRows cols rows0 sortcol with
              | error p =>
                  rw [RowsFromMapDelta_sortpanic cols sortcol newdata olddata interval _ rfl
                    rows0 p hdl hsrt] at h
                  cases h
              | ok rows2 =>
                  rw [RowsFromMapDelta_via cols sortcol newdata olddata interval _ rfl
                    rows0 rows2 hdl hsrt] at h
                  simp only [Except.ok.injEq, Prod.mk.injEq] at h
                  obtain ⟨h1, -⟩ := h
                  rw [sortRows_eq] at hsrt
                  exact (sortRowsCore_perm _ _ _ _ hsrt).mem_iff.mp (h1.symm ▸ hr)
        obtain ⟨kv, hkv, hdc⟩ := dLoop_rows cols _ olddata newdata rows0 e0 hdl r hmem
        rw [deltaCellsGo_length cols _ kv.2 _ r hdc, hcount kv.2 (hndata kv hkv)]

/-- Claim C5 (witness): the invariant instantiated on shape1 (one OMIT and two
rendered columns) with one-record collections in all three build modes. -/
theorem C5_cells_match_witness :
    (ColumnInfo shape1 = .ok (cols1, ["B", "C"], "B", none)) ∧
    ((∀ rows, RowsFromMap cols1 "B"
        [("k", [("A", GoValue.int 1), ("B", GoValue.str "a"), ("C", GoValue.str "z")])] =
          .ok rows →
      ∀ r ∈ rows, r.length = nonOmitCount cols1) ∧
    (∀ r ∈ RowsFromSlice cols1
        [[("A", GoValue.int 1), ("B", GoValue.str "a"), ("C", GoValue.str "z")]],
      r.length = nonOmitCount cols1) ∧
    (∀ rows e, RowsFromMapDelta cols1 "B"
        [("k", [("A", GoValue.int 1), ("B", GoValue.str "a"), ("C", GoValue.str "z")])]
        [("k", [("A", GoValue.int 2), ("B", GoValue.str "b"), ("C", GoValue.str "y")])]
        0 = .ok (rows, e) →
      ∀ r ∈ rows, r.length = nonOmitCount cols1)) :=
  ⟨by rfl,
    C5_cells_match_nonomit shape1 cols1 ["B", "C"] "B" (by rfl) (by decide) "B"
      [("k", [("A", GoValue.int 1), ("B", GoValue.str "a"), ("C", GoValue.str "z")])]
      (by decide)
      [[("A", GoValue.int 1), ("B", GoValue.str "a"), ("C", GoValue.str "z")]]
      (by decide)
      [("k", [("A", GoValue.int 1), ("B", GoValue.str "a"), ("C", GoValue.str "z")])]
      [("k", [("A", GoValue.int 2), ("B", GoValue.str "b"), ("C", GoValue.str "y")])]
      0 (by decide)⟩

/-- Claim C7 (amended): a second name-only clause is a ConfigurationError only
when the display name has already been changed away from the field name: for
clauses n1, n2 without '=', a tag n1,n2 with n1 different from the field name
fails with the name-redefinition error, but when the first clause equals the
field name the second clause is silently accepted and becomes the display
name; a tag with no name-only clause (for example a single format clause)
succeeds with the display name defaulting to the field name. -/
theorem C7_name_clause_rules (fieldname : String) (n1 n2 fsp : List Char)
    (h1c : ',' ∉ n1) (h1e : '=' ∉ n1)
    (h2c : ',' ∉ n2) (h2e : '=' ∉ n2)
    (hne : String.mk n1 ≠ fieldname)
    (hfc : ',' ∉ fieldname.toList) (hfe : '=' ∉ fieldname.toList)
    (hpc : ',' ∉ fsp) :
    parseTagsL fieldname (n1 ++ ',' :: n2) =
      .ok ({ tags := String.mk (n1 ++ ',' :: n2), name := String.mk n1, number := 0,
             format := "%v", sort := .sortNone }, some .nameRedefined) ∧
    parseTagsL fieldname (fieldname.toList ++ ',' :: n2) =
      .ok ({ tags := String.mk (fieldname.toList ++ ',' :: n2), name := String.mk n2,
             number := 0, format := "%v", sort := .sortNone }, none) ∧
    parseTagsL fieldname ("format".toList ++ '=' :: fsp) =
      .ok ({ tags := String.mk ("format".toList ++ '=' :: fsp), name := fieldname,
             number := 0, format := String.mk fsp, sort := .sortNone }, none) := by
  refine ⟨?_, ?_, ?_⟩
  · rw [parseTagsL, splitComma_append n1 n2 h1c, splitComma_no_comma n2 h2c]
    simp only [ptLoop, parseClause, splitEq_none n1 h1e, splitEq_none n2 h2e, ne_eq,
      ite_not]
    simp [hne]
  · rw [parseTagsL, splitComma_append fieldname.toList n2 hfc, splitComma_no_comma n2 h2c]
    simp only [ptLoop, parseClause, splitEq_none fieldname.toList hfe, splitEq_none n2 h2e,
      ne_eq, ite_not, strmk_toList]
    simp
  · have hcm : ',' ∉ ("format".toList ++ '=' :: fsp) := by
      intro hm
      rcases List.mem_append.mp hm with hm1 | hm2
      · exact absurd hm1 (by decide)
      · rcases List.mem_cons.mp hm2 with hm3 | hm4
        · exact absurd hm3 (by decide)
        · exact hpc hm4
    rw [parseTagsL, splitComma_no_comma _ hcm]
    simp only [ptLoop, parseClause, splitEq_append "format".toList fsp (by decide)]
    rw [if_neg (by decide : ¬ (String.mk "format".toList = "sort")),
      if_pos (by decide : (String.mk "format".toList = "format"))]

/-- Claim C7 (witness): the three rules instantiated on field "A" with name
clauses "X" and "B" and a format clause "%d". -/
theorem C7_name_clause_witness :
    (String.mk "X".toList ≠ "A") ∧
    (parseTagsL "A" ("X".toList ++ ',' :: "B".toList) =
      .ok ({ tags := String.mk ("X".toList ++ ',' :: "B".toList), name := String.mk "X".toList,
             number := 0, format := "%v", sort := .sortNone }, some .nameRedefined) ∧
    parseTagsL "A" (("A" : String).toList ++ ',' :: "B".toList) =
      .ok ({ tags := String.mk (("A" : String).toList ++ ',' :: "B".toList),
             name := String.mk "B".toList, number := 0, format := "%v",
             sort := .sortNone }, none) ∧
    parseTagsL "A" ("format".toList ++ '=' :: "%d".toList) =
      .ok ({ tags := String.mk ("format".toList ++ '=' :: "%d".toList), name := "A",
             number := 0, format := String.mk "%d".toList, sort := .sortNone }, none)) :=
  ⟨by decide,
    C7_name_clause_rules "A" "X".toList "B".toList "%d".toList (by decide) (by decide)
      (by decide) (by decide) (by decide) (by decide) (by decide) (by decide)⟩
